import Mathlib

/-!
Shallow embedding of the rsmqtt broker core (libs/service), covering the
session/routing storage (src/libs/service/src/storage.rs) and the
connection driver (src/libs/service/src/client_loop.rs).

Rust HashMaps are modelled as association lists with unique keys kept by
the operations themselves; BTreeSets of timeout keys are modelled as plain
lists with an explicit minimum function.  Instants are modelled as natural
numbers.  Panics (the source's .unwrap() on a missing session) are
modelled by Option-valued operations returning none.
-/

/-- Lookup in an association list (model of HashMap::get). -/
def findA {α β : Type} [DecidableEq α] : List (α × β) → α → Option β
  | [], _ => none
  | (k2, v) :: rest, k => if k2 = k then some v else findA rest k

/-- Insert or replace in an association list (model of HashMap::insert);
entries with the key are replaced in place, a fresh key is appended. -/
def insertA {α β : Type} [DecidableEq α] : List (α × β) → α → β → List (α × β)
  | [], k, v => [(k, v)]
  | (k2, v2) :: rest, k, v =>
    if k2 = k then (k, v) :: rest else (k2, v2) :: insertA rest k v

/-- Remove every entry with the given key (model of HashMap::remove). -/
def eraseKeyA {α β : Type} [DecidableEq α] : List (α × β) → α → List (α × β)
  | [], _ => []
  | (k2, v2) :: rest, k =>
    if k2 = k then eraseKeyA rest k else (k2, v2) :: eraseKeyA rest k

/-- Apply a function to the entries with the given key. -/
def modifyA {α β : Type} [DecidableEq α] : List (α × β) → α → (β → β) → List (α × β)
  | [], _, _ => []
  | (k2, v2) :: rest, k, f =>
    if k2 = k then (k2, f v2) :: modifyA rest k f else (k2, v2) :: modifyA rest k f

theorem findA_insertA_self {α β : Type} [DecidableEq α] (l : List (α × β)) (k : α) (v : β) :
    findA (insertA l k v) k = some v := by
  induction l with
  | nil => simp [insertA, findA]
  | cons p rest ih =>
    obtain ⟨k2, v2⟩ := p
    by_cases h : k2 = k <;> simp [insertA, findA, h, ih]

theorem findA_insertA_ne {α β : Type} [DecidableEq α] (l : List (α × β)) (k k' : α) (v : β)
    (h : k' ≠ k) : findA (insertA l k v) k' = findA l k' := by
  induction l with
  | nil => simp [insertA, findA, Ne.symm h]
  | cons p rest ih =>
    obtain ⟨k2, v2⟩ := p
    by_cases h2 : k2 = k
    · subst h2
      simp [insertA, findA, Ne.symm h]
    · simp only [insertA, if_neg h2]
      by_cases h3 : k2 = k' <;> simp [findA, h3, ih]

theorem findA_eraseKeyA_self {α β : Type} [DecidableEq α] (l : List (α × β)) (k : α) :
    findA (eraseKeyA l k) k = none := by
  induction l with
  | nil => simp [eraseKeyA, findA]
  | cons p rest ih =>
    obtain ⟨k2, v2⟩ := p
    by_cases h : k2 = k <;> simp [eraseKeyA, findA, h, ih]

theorem findA_eraseKeyA_ne {α β : Type} [DecidableEq α] (l : List (α × β)) (k k' : α)
    (h : k' ≠ k) : findA (eraseKeyA l k) k' = findA l k' := by
  induction l with
  | nil => simp [eraseKeyA, findA]
  | cons p rest ih =>
    obtain ⟨k2, v2⟩ := p
    by_cases h2 : k2 = k
    · subst h2
      simp [eraseKeyA, findA, Ne.symm h, ih]
    · by_cases h3 : k2 = k' <;> simp [eraseKeyA, findA, h, h2, h3, ih]

theorem findA_modifyA_self {α β : Type} [DecidableEq α] (l : List (α × β)) (k : α) (f : β → β) :
    findA (modifyA l k f) k = (findA l k).map f := by
  induction l with
  | nil => simp [modifyA, findA]
  | cons p rest ih =>
    obtain ⟨k2, v2⟩ := p
    by_cases h : k2 = k <;> simp [modifyA, findA, h, ih]

theorem findA_modifyA_ne {α β : Type} [DecidableEq α] (l : List (α × β)) (k k' : α) (f : β → β)
    (h : k' ≠ k) : findA (modifyA l k f) k' = findA l k' := by
  induction l with
  | nil => simp [modifyA, findA]
  | cons p rest ih =>
    obtain ⟨k2, v2⟩ := p
    by_cases h2 : k2 = k
    · subst h2
      simp [modifyA, findA, Ne.symm h, ih]
    · by_cases h3 : k2 = k' <;> simp [modifyA, findA, h, h2, h3, ih]

/-- MQTT quality of service (codec crate, re-exported as mqttv5::Qos). -/
inductive Qos
  | atMostOnce
  | atLeastOnce
  | exactlyOnce
deriving DecidableEq

def Qos.toNat : Qos → Nat
  | .atMostOnce => 0
  | .atLeastOnce => 1
  | .exactlyOnce => 2

def Qos.min (a b : Qos) : Qos := if a.toNat ≤ b.toNat then a else b

def Qos.max (a b : Qos) : Qos := if a.toNat ≤ b.toNat then b else a

/-- Retain handling mode of a subscription (codec crate). -/
inductive RetainHandling
  | onEverySubscribe
  | onNewSubscribe
  | never
deriving DecidableEq

inductive ProtocolLevel
  | v4
  | v5
deriving DecidableEq

/-- Modelled from the spec: the properties of an application message
(payload-format-indicator, message-expiry-interval, content-type,
response-topic, correlation-data, user-properties,
subscription-identifiers); the codec crate's PublishProperties is not
under src/. -/
structure PublishProperties where
  payload_format_indicator : Option Bool
  message_expiry_interval : Option Nat
  topic_alias : Option Nat
  response_topic : Option String
  correlation_data : Option String
  user_properties : List (String × String)
  subscription_identifiers : List Nat
  content_type : Option String
deriving DecidableEq

def PublishProperties.default : PublishProperties :=
  { payload_format_indicator := none
    message_expiry_interval := none
    topic_alias := none
    response_topic := none
    correlation_data := none
    user_properties := []
    subscription_identifiers := []
    content_type := none }

/-- Modelled from the spec: will properties with the will-delay interval
(codec crate's WillProperties is not under src/). -/
structure WillProperties where
  delay_interval : Option Nat
  payload_format_indicator : Option Bool
  message_expiry_interval : Option Nat
  content_type : Option String
  response_topic : Option String
  correlation_data : Option String
  user_properties : List (String × String)
deriving DecidableEq

/-- Modelled from the spec: a stored last will (codec crate's LastWill is
not under src/). -/
structure LastWill where
  qos : Qos
  retain : Bool
  topic : String
  payload : String
  properties : WillProperties
deriving DecidableEq

/-- Modelled from the spec: an in-memory application message with topic,
QoS, payload, retain flag, properties, origin client-id, origin user-id
and an absolute expiry deadline (src/libs/service/src/message.rs is not
under src/). -/
structure Message where
  topic : String
  qos : Qos
  payload : String
  retain : Bool
  properties : PublishProperties
  publisher : Option String
  from_uid : Option String
  expiry_at : Option Nat
deriving DecidableEq

def Message.is_retain (m : Message) : Bool := m.retain

def Message.is_empty (m : Message) : Bool := m.payload.data.isEmpty

/-- Modelled from the spec: a message is expired once its absolute expiry
deadline has been reached. -/
def Message.is_expired (m : Message) (now : Nat) : Bool :=
  match m.expiry_at with
  | some t => t ≤ now
  | none => false

/-- Modelled from the spec: Message::new builds a fresh message with the
given topic, qos and payload and default everything else. -/
def Message.new (topic : String) (qos : Qos) (payload : String) : Message :=
  { topic := topic
    qos := qos
    payload := payload
    retain := false
    properties := PublishProperties.default
    publisher := none
    from_uid := none
    expiry_at := none }

def Message.with_retain (m : Message) (retain : Bool) : Message := { m with retain := retain }

def Message.with_properties (m : Message) (properties : PublishProperties) : Message :=
  { m with properties := properties }

/-- Modelled from the spec: an outbound Publish control packet (codec
crate's Publish is not under src/). -/
structure Publish where
  dup : Bool
  qos : Qos
  retain : Bool
  topic : String
  packet_id : Option Nat
  payload : String
  properties : PublishProperties
deriving DecidableEq

/-- Modelled from the spec: to_publish_and_update_expiry_interval returns
none when the message has expired, otherwise rebuilds a Publish with the
remaining seconds-to-expiry written back into the properties. -/
def Message.to_publish_and_update_expiry_interval (m : Message) (now : Nat) : Option Publish :=
  if m.is_expired now then none
  else
    some
      { dup := false
        qos := m.qos
        retain := m.retain
        topic := m.topic
        packet_id := none
        payload := m.payload
        properties := { m.properties with
                          message_expiry_interval := m.expiry_at.map (fun t => t - now) } }

/-- Modelled from the spec: a parsed topic filter, carrying the optional
share-group name and the filter path without the share prefix
(src/libs/service/src/filter.rs is not under src/). -/
structure TopicFilter where
  share_name : Option String
  path : String
deriving DecidableEq

/-- Split a character list at the topic-level separator. -/
def splitLevelsAux : List Char → List Char → List String
  | [], acc => [String.mk acc.reverse]
  | c :: rest, acc =>
    if c = '/' then String.mk acc.reverse :: splitLevelsAux rest []
    else splitLevelsAux rest (c :: acc)

/-- The slash-separated levels of a topic or filter path. -/
def splitLevels (s : String) : List String :=
  splitLevelsAux s.data []

/-- Whether a topic is a server-internal one, beginning with a dollar. -/
def startsDollar (s : String) : Bool :=
  match s.data with
  | c :: _ => c = '$'
  | [] => false

/-- Modelled from the spec: level-by-level topic matching; a plus matches
exactly one level, a hash matches zero or more trailing levels. -/
def levelsMatch : List String → List String → Bool
  | [], [] => true
  | ["#"], _ => true
  | f :: fs, t :: ts => (f = "+" || f = t) && levelsMatch fs ts
  | _, _ => false

/-- Modelled from the spec: the standard MQTT match; topics beginning
with a dollar sign do not match a filter whose first level is a wildcard. -/
def TopicFilter.matches (f : TopicFilter) (topic : String) : Bool :=
  let fl := splitLevels f.path
  if startsDollar topic && (fl.head? = some "+" || fl.head? = some "#") then false
  else levelsMatch fl (splitLevels topic)

/-- One subscription entry of a session (storage.rs FilterItem). -/
structure FilterItem where
  topic_filter : TopicFilter
  qos : Qos
  no_local : Bool
  retain_as_published : Bool
  retain_handling : RetainHandling
  id : Option Nat
deriving DecidableEq

/-- The per-session filter map, keyed by the filter path (storage.rs
Filters, a HashMap from path to FilterItem). -/
structure Filters where
  items : List (String × FilterItem)
deriving DecidableEq

def Filters.default : Filters := ⟨[]⟩

/-- storage.rs Filters::insert: keyed by topic_filter.path(), returning
the replaced entry. -/
def Filters.insert (f : Filters) (item : FilterItem) : Filters × Option FilterItem :=
  (⟨insertA f.items item.topic_filter.path item⟩, findA f.items item.topic_filter.path)

/-- storage.rs Filters::remove. -/
def Filters.remove (f : Filters) (path : String) : Filters × Option FilterItem :=
  (⟨eraseKeyA f.items path⟩, findA f.items path)

def Filters.is_empty (f : Filters) : Bool := f.items.isEmpty

/-- The loop body of Filters::filter_message, folding the running
(matched, max_qos, retain, ids) tuple over one filter entry. -/
def filterStep (client_id : String) (msg : Message)
    (acc : Bool × Qos × Bool × List Nat) (p : String × FilterItem) :
    Bool × Qos × Bool × List Nat :=
  let filter := p.2
  if filter.no_local && decide (msg.publisher = some client_id) then acc
  else if !(filter.topic_filter.matches msg.topic) then acc
  else
    (true, (acc.2.1).max filter.qos,
      (if !filter.retain_as_published then false else acc.2.2.1),
      acc.2.2.2 ++ (match filter.id with | some i => [i] | none => []))

/-- storage.rs Filters::filter_message: the matching engine computing the
effective message for one session. -/
def Filters.filter_message (self : Filters) (client_id : String) (now : Nat) (msg : Message) :
    Option Message :=
  if msg.is_expired now then none
  else
    let st := self.items.foldl (filterStep client_id msg)
      (false, Qos.atMostOnce, msg.is_retain, [])
    if st.1 then
      some ((Message.new msg.topic (msg.qos.min st.2.1) msg.payload).with_retain st.2.2.1
        |>.with_properties { msg.properties with subscription_identifiers := st.2.2.2 })
    else none

/-- A filter entry applies to a message for a client when it is not
skipped by no_local and its topic filter matches the message topic. -/
def FilterItem.applies (filter : FilterItem) (client_id : String) (msg : Message) : Bool :=
  !(filter.no_local && decide (msg.publisher = some client_id)) &&
    filter.topic_filter.matches msg.topic

/-- The filter entries of a session that apply to a message. -/
def Filters.applying (self : Filters) (client_id : String) (msg : Message) :
    List (String × FilterItem) :=
  self.items.filter (fun p => p.2.applies client_id msg)

/-- Maximum QoS over a list of filter entries, starting from QoS 0. -/
def maxQosOf (l : List (String × FilterItem)) : Qos :=
  l.foldl (fun q p => q.max p.2.qos) Qos.atMostOnce

theorem foldl_filterStep (client_id : String) (msg : Message) (items : List (String × FilterItem))
    (m0 : Bool) (q0 : Qos) (r0 : Bool) (i0 : List Nat) :
    items.foldl (filterStep client_id msg) (m0, q0, r0, i0) =
      (m0 || !(items.filter (fun p => p.2.applies client_id msg)).isEmpty,
       (items.filter (fun p => p.2.applies client_id msg)).foldl (fun q p => q.max p.2.qos) q0,
       r0 && (items.filter (fun p => p.2.applies client_id msg)).all
         (fun p => p.2.retain_as_published),
       i0 ++ (items.filter (fun p => p.2.applies client_id msg)).filterMap (fun p => p.2.id)) := by
  induction items generalizing m0 q0 r0 i0 with
  | nil => simp
  | cons p rest ih =>
    by_cases hskip : (p.2.no_local && decide (msg.publisher = some client_id)) = true
    · have happ : p.2.applies client_id msg = false := by
        simp [FilterItem.applies, hskip]
      simp only [List.foldl_cons, List.filter_cons, happ, Bool.false_eq_true, if_false]
      simp only [filterStep, if_pos hskip]
      exact ih m0 q0 r0 i0
    · by_cases hm : p.2.topic_filter.matches msg.topic = true
      · have happ : p.2.applies client_id msg = true := by
          simp only [FilterItem.applies, hm, Bool.and_true, Bool.not_eq_true']
          simpa using hskip
        simp only [List.foldl_cons, List.filter_cons, happ, if_true]
        simp only [filterStep, if_neg hskip, hm, Bool.not_true, Bool.false_eq_true, if_false]
        rw [ih]
        cases hr : p.2.retain_as_published <;> cases hid : p.2.id <;>
          simp [hr, hid, List.filterMap_cons, List.append_assoc]
      · have happ : p.2.applies client_id msg = false := by
          simp [FilterItem.applies, hm]
        simp only [List.foldl_cons, List.filter_cons, happ, Bool.false_eq_true, if_false]
        have hstep : filterStep client_id msg (m0, q0, r0, i0) p = (m0, q0, r0, i0) := by
          simp [filterStep, if_neg hskip, hm]
        rw [hstep]
        exact ih m0 q0 r0 i0

/-- C1: For every session filter map, client-id and non-expired message,
filter_message returns Some exactly when at least one filter matches the
topic and is not skipped by no_local; the returned message has QoS equal
to the minimum of the message QoS and the maximum QoS over matching
filters, retain true only if the message's retain flag was true and every
matching filter had retain_as_published, subscription_identifiers equal
to the insertion-order list of the non-null subscription-ids of matching
filters with all other properties copied; an expired message yields
none. -/
theorem c1_filter_message_spec (self : Filters) (client_id : String) (now : Nat) (msg : Message) :
    (msg.is_expired now = true → self.filter_message client_id now msg = none) ∧
    ((self.filter_message client_id now msg).isSome ↔
      msg.is_expired now = false ∧ self.applying client_id msg ≠ []) ∧
    (∀ m, self.filter_message client_id now msg = some m →
      m.qos = msg.qos.min (maxQosOf (self.applying client_id msg)) ∧
      m.retain = (msg.is_retain &&
        (self.applying client_id msg).all (fun p => p.2.retain_as_published)) ∧
      m.properties = { msg.properties with
        subscription_identifiers := (self.applying client_id msg).filterMap (fun p => p.2.id) } ∧
      m.topic = msg.topic ∧ m.payload = msg.payload) := by
  unfold Filters.filter_message
  rw [foldl_filterStep]
  by_cases hexp : msg.is_expired now = true
  · simp [hexp, Filters.applying]
  · simp only [hexp, Bool.false_eq_true, if_false]
    constructor
    · intro h
      exact absurd h (by simp [hexp])
    constructor
    · by_cases hne : (self.items.filter (fun p => p.2.applies client_id msg)).isEmpty = true
      · simp [hne, Filters.applying, List.isEmpty_iff.mp hne, hexp]
      · simp only [Bool.not_eq_true] at hne
        simp only [hne, Bool.not_false, Bool.or_true, if_true, Option.isSome_some,
          true_iff]
        refine ⟨by simp [hexp], ?_⟩
        simpa [Filters.applying, List.isEmpty_iff] using hne
    · intro m hm
      by_cases hne : (self.items.filter (fun p => p.2.applies client_id msg)).isEmpty = true
      · simp [hne] at hm
      · simp only [Bool.not_eq_true] at hne
        simp only [hne, Bool.not_false, Bool.or_true, if_true, Option.some.injEq] at hm
        subst hm
        simp [Message.new, Message.with_retain, Message.with_properties, Filters.applying,
          maxQosOf]

/-- Witness for c1_filter_message_spec at a concrete filter map and
messages: an expired message is dropped and a matching live message is
rewritten as specified. -/
theorem c1_filter_message_spec_witness :
    Filters.filter_message
      ⟨[("a/+", { topic_filter := ⟨none, "a/+"⟩, qos := .atLeastOnce, no_local := false,
                  retain_as_published := true, retain_handling := .never, id := some 7 })]⟩
      "c" 5 { Message.new "a/b" .exactlyOnce "hi" with expiry_at := some 3 } = none ∧
    (((Message.new "a/b" .atLeastOnce "hi").with_retain true).with_properties
        { PublishProperties.default with subscription_identifiers := [7] }).qos =
      Qos.min Qos.exactlyOnce (maxQosOf (Filters.applying
        ⟨[("a/+", { topic_filter := ⟨none, "a/+"⟩, qos := .atLeastOnce, no_local := false,
                    retain_as_published := true, retain_handling := .never, id := some 7 })]⟩
        "c" { Message.new "a/b" .exactlyOnce "hi" with retain := true })) := by
  constructor
  · exact (c1_filter_message_spec
      ⟨[("a/+", { topic_filter := ⟨none, "a/+"⟩, qos := .atLeastOnce, no_local := false,
                  retain_as_published := true, retain_handling := .never, id := some 7 })]⟩
      "c" 5 { Message.new "a/b" .exactlyOnce "hi" with expiry_at := some 3 }).1 (by decide)
  · exact ((c1_filter_message_spec
      ⟨[("a/+", { topic_filter := ⟨none, "a/+"⟩, qos := .atLeastOnce, no_local := false,
                  retain_as_published := true, retain_handling := .never, id := some 7 })]⟩
      "c" 0 { Message.new "a/b" .exactlyOnce "hi" with retain := true }).2.2 _ (by decide)).1

/-- A timer-set key: deadline plus owning client (storage.rs TimeoutKey,
with Instant modelled as a natural number). -/
structure TimeoutKey where
  client_id : String
  timeout : Nat
deriving DecidableEq

/-- Remove a key from a timer set (model of BTreeSet::remove). -/
def removeT : List TimeoutKey → TimeoutKey → List TimeoutKey
  | [], _ => []
  | x :: rest, k => if x = k then removeT rest k else x :: removeT rest k

/-- Insert a key into a timer set (model of BTreeSet::insert). -/
def insertT (l : List TimeoutKey) (k : TimeoutKey) : List TimeoutKey :=
  if k ∈ l then l else k :: l

theorem mem_removeT {l : List TimeoutKey} {k x : TimeoutKey} :
    x ∈ removeT l k ↔ x ∈ l ∧ x ≠ k := by
  induction l with
  | nil => simp [removeT]
  | cons a rest ih =>
    by_cases h : a = k
    · subst h
      simp [removeT, ih]
      intro h2
      simp [h2]
    · simp only [removeT, if_neg h, List.mem_cons, ih]
      constructor
      · rintro (rfl | ⟨h1, h2⟩)
        · exact ⟨Or.inl rfl, h⟩
        · exact ⟨Or.inr h1, h2⟩
      · rintro ⟨rfl | h1, h2⟩
        · exact Or.inl rfl
        · exact Or.inr ⟨h1, h2⟩

/-- A session's state in storage (storage.rs Session; the tokio notifier,
a pure wake-up handle, is omitted from the model). -/
structure Session where
  queue : List Message
  subscription_filters : Filters
  last_will : Option LastWill
  inflight_pub_packets : List Publish
  uncompleted_messages : List (Nat × Message)
  last_will_timeout_key : Option TimeoutKey
  remove_timeout_key : Option TimeoutKey
deriving DecidableEq

/-- The session inserted by create_session when none is present. -/
def Session.fresh (last_will : Option LastWill) : Session :=
  { queue := []
    subscription_filters := Filters.default
    last_will := last_will
    inflight_pub_packets := []
    uncompleted_messages := []
    last_will_timeout_key := none
    remove_timeout_key := none }

/-- The whole storage state (storage.rs StorageInner). -/
structure StorageInner where
  retain_messages : List (String × Message)
  sessions : List (String × Session)
  send_last_will_timeout : List TimeoutKey
  remove_timeout : List TimeoutKey
  share_subscriptions : List (String × List (String × Filters))
  clients_expired : Nat
deriving DecidableEq

/-- Push a message onto the queue of the named session, a no-op when the
session is absent (the shared-delivery branch of StorageInner::publish). -/
def pushToQueue (sessions : List (String × Session)) (client_id : String) (msg : Message) :
    List (String × Session) :=
  modifyA sessions client_id (fun s => { s with queue := s.queue ++ [msg] })

/-- The members of one share group whose filters match the message,
paired with their filtered message (the matched_clients vector). -/
def groupMatched (now : Nat) (msg : Message) (clients : List (String × Filters)) :
    List (String × Message) :=
  clients.filterMap (fun p => (p.2.filter_message p.1 now msg).map (fun m => (p.1, m)))

/-- Vec::swap_remove at index i: the element at i is replaced by the
last element, which is then popped. -/
def swapRemove {α : Type} (l : List α) (i : Nat) : List α :=
  match l.getLast? with
  | none => []
  | some last => (l.set i last).dropLast

/-- The share-group loop of StorageInner::publish for one message: the
matched_clients vector is cleared once per message, not per group, so it
is threaded through the group iterations; each group appends its own
matching members, and every iteration whose vector is non-empty
swap_removes one randomly drawn element (the draw for the group at
position g.1 is pick g.1) and delivers it - leftovers of earlier groups
included. -/
def shareLoop (pick : Nat → Nat) (now : Nat) (msg : Message) :
    List (Nat × (String × List (String × Filters))) → List (String × Message) →
      List (String × Message)
  | [], _ => []
  | g :: rest, matched =>
    let matched1 := matched ++ groupMatched now msg g.2.2
    if h : matched1.length = 0 then shareLoop pick now msg rest matched1
    else
      matched1.get ⟨pick g.1 % matched1.length, Nat.mod_lt _ (Nat.pos_of_ne_zero h)⟩ ::
        shareLoop pick now msg rest (swapRemove matched1 (pick g.1 % matched1.length))

/-- All share-group deliveries of one published message, in iteration
order, threading the matched_clients vector (empty at the start of each
message) through the groups. -/
def shareDeliveries (pick : Nat → Nat) (now : Nat) (msg : Message)
    (groups : List (String × List (String × Filters))) : List (String × Message) :=
  shareLoop pick now msg groups.enum []

/-- storage.rs StorageInner::publish for one message: fan out to every
session whose own filters match, then run the share-group delivery
loop. -/
def StorageInner.publishOne (pick : Nat → Nat) (now : Nat) (inner : StorageInner)
    (msg : Message) : StorageInner :=
  let sessions1 := inner.sessions.map (fun p =>
    match p.2.subscription_filters.filter_message p.1 now msg with
    | some m => (p.1, { p.2 with queue := p.2.queue ++ [m] })
    | none => p)
  let sessions2 := (shareDeliveries pick now msg inner.share_subscriptions).foldl
    (fun acc cm => pushToQueue acc cm.1 cm.2) sessions1
  { inner with sessions := sessions2 }

/-- storage.rs StorageInner::publish over an iterator of messages. -/
def StorageInner.publish (pick : Nat → Nat → Nat) (now : Nat) (inner : StorageInner)
    (msgs : List Message) : StorageInner :=
  msgs.enum.foldl (fun st p => st.publishOne (pick p.1) now p.2) inner

/-- storage.rs StorageInner::remove_session: drop the session, its timer
keys, and its entries in every share group. -/
def StorageInner.remove_session (inner : StorageInner) (client_id : String) : StorageInner :=
  let inner1 :=
    match findA inner.sessions client_id with
    | some session =>
      { inner with
          sessions := eraseKeyA inner.sessions client_id
          send_last_will_timeout :=
            match session.last_will_timeout_key with
            | some key => removeT inner.send_last_will_timeout key
            | none => inner.send_last_will_timeout
          remove_timeout :=
            match session.remove_timeout_key with
            | some key => removeT inner.remove_timeout key
            | none => inner.remove_timeout }
    | none => inner
  { inner1 with
      share_subscriptions :=
        inner1.share_subscriptions.map (fun p => (p.1, eraseKeyA p.2 client_id)) }

/-- storage.rs Storage::update_retained_message: an empty payload deletes
the retained entry, otherwise it is inserted or replaced. -/
def Storage.update_retained_message (inner : StorageInner) (topic : String) (msg : Message) :
    StorageInner :=
  if msg.is_empty then { inner with retain_messages := eraseKeyA inner.retain_messages topic }
  else { inner with retain_messages := insertA inner.retain_messages topic msg }

/-- storage.rs Storage::create_session, returning the new state and
session_present (the notifier handle is omitted). -/
def Storage.create_session (inner : StorageInner) (client_id : String) (clean_start : Bool)
    (last_will : Option LastWill) : StorageInner × Bool :=
  if !clean_start then
    match findA inner.sessions client_id with
    | some session =>
      let inner1 := { inner with
        sessions := modifyA inner.sessions client_id (fun s =>
          { s with
              last_will := last_will
              last_will_timeout_key := none
              remove_timeout_key := none }) }
      let inner2 := { inner1 with
        send_last_will_timeout :=
          match session.last_will_timeout_key with
          | some key => removeT inner1.send_last_will_timeout key
          | none => inner1.send_last_will_timeout
        remove_timeout :=
          match session.remove_timeout_key with
          | some key => removeT inner1.remove_timeout key
          | none => inner1.remove_timeout }
      (inner2, true)
    | none =>
      ({ inner with
          sessions := insertA inner.sessions client_id (Session.fresh last_will) }, false)
  else
    let inner1 := inner.remove_session client_id
    ({ inner1 with
        sessions := insertA inner1.sessions client_id (Session.fresh last_will) }, false)

/-- storage.rs Storage::subscribe: a shared filter goes into the share
group maps; otherwise it goes into the session's own filter map (none
models the panic when the session is missing), and retained messages are
enqueued according to retain_handling. -/
def Storage.subscribe (inner : StorageInner) (client_id : String) (now : Nat)
    (filter : FilterItem) : Option StorageInner :=
  match filter.topic_filter.share_name with
  | some share_name =>
    let clients := (findA inner.share_subscriptions share_name).getD []
    let filters := (findA clients client_id).getD Filters.default
    let filters' := (filters.insert filter).1
    some { inner with
      share_subscriptions :=
        insertA inner.share_subscriptions share_name (insertA clients client_id filters') }
  | none =>
    match findA inner.sessions client_id with
    | none => none
    | some session =>
      let retain_handling := filter.retain_handling
      let inserted := session.subscription_filters.insert filter
      let is_new_subscribe := inserted.2.isNone
      let publish_retain :=
        match retain_handling, is_new_subscribe with
        | RetainHandling.onEverySubscribe, _ => true
        | RetainHandling.onNewSubscribe, true => true
        | _, _ => false
      let enqueued :=
        if publish_retain then
          inner.retain_messages.filterMap (fun p => inserted.1.filter_message client_id now p.2)
        else []
      some { inner with
        sessions := modifyA inner.sessions client_id (fun s =>
          { s with subscription_filters := inserted.1, queue := s.queue ++ enqueued }) }

/-- storage.rs Storage::unsubscribe: remove from the appropriate map,
report whether an entry was removed, and clean up empty share-group and
client entries. -/
def Storage.unsubscribe (inner : StorageInner) (client_id : String) (filter : TopicFilter) :
    Option (Bool × StorageInner) :=
  match filter.share_name with
  | some share_name =>
    match findA inner.share_subscriptions share_name with
    | none => some (false, inner)
    | some clients =>
      let step :=
        match findA clients client_id with
        | none => (false, clients)
        | some filters =>
          let removed := filters.remove filter.path
          if removed.1.is_empty then (removed.2.isSome, eraseKeyA clients client_id)
          else (removed.2.isSome, insertA clients client_id removed.1)
      let share' :=
        if step.2.isEmpty then eraseKeyA inner.share_subscriptions share_name
        else insertA inner.share_subscriptions share_name step.2
      some (step.1, { inner with share_subscriptions := share' })
  | none =>
    match findA inner.sessions client_id with
    | none => none
    | some session =>
      let removed := session.subscription_filters.remove filter.path
      some (removed.2.isSome,
        { inner with
          sessions := modifyA inner.sessions client_id (fun s =>
            { s with subscription_filters := removed.1 }) })

/-- storage.rs Storage::next_messages: clone up to limit messages from
the queue front without removing them. -/
def Storage.next_messages (inner : StorageInner) (client_id : String) (limit : Option Nat) :
    Option (List Message) :=
  match findA inner.sessions client_id with
  | none => none
  | some session =>
    some (match limit with
      | some n => session.queue.take n
      | none => session.queue)

/-- storage.rs Storage::consume_messages: pop count messages from the
queue front. -/
def Storage.consume_messages (inner : StorageInner) (client_id : String) (count : Nat) :
    Option StorageInner :=
  match findA inner.sessions client_id with
  | none => none
  | some _ =>
    some { inner with
      sessions := modifyA inner.sessions client_id (fun s =>
        { s with queue := s.queue.drop count }) }

/-- storage.rs Storage::add_inflight_pub_packet: append to the session's
in-flight deque. -/
def Storage.add_inflight_pub_packet (inner : StorageInner) (client_id : String)
    (publish : Publish) : Option StorageInner :=
  match findA inner.sessions client_id with
  | none => none
  | some _ =>
    some { inner with
      sessions := modifyA inner.sessions client_id (fun s =>
        { s with inflight_pub_packets := s.inflight_pub_packets ++ [publish] }) }

/-- storage.rs Storage::get_inflight_pub_packets: match only the deque
front, returning it and popping it iff remove is set. -/
def Storage.get_inflight_pub_packets (inner : StorageInner) (client_id : String)
    (packet_id : Nat) (remove : Bool) : Option (Option Publish × StorageInner) :=
  match findA inner.sessions client_id with
  | none => none
  | some session =>
    if remove then
      if (session.inflight_pub_packets.head?.map
            (fun publish => decide (publish.packet_id = some packet_id))).getD false then
        some (session.inflight_pub_packets.head?,
          { inner with
            sessions := modifyA inner.sessions client_id (fun s =>
              { s with inflight_pub_packets := s.inflight_pub_packets.tail }) })
      else some (none, inner)
    else
      some (match session.inflight_pub_packets.head? with
        | some publish =>
          if publish.packet_id = some packet_id then some publish else none
        | none => none, inner)

/-- storage.rs Storage::get_all_inflight_pub_packets: clone of the
deque, used for replay on reconnect. -/
def Storage.get_all_inflight_pub_packets (inner : StorageInner) (client_id : String) :
    Option (List Publish) :=
  match findA inner.sessions client_id with
  | none => none
  | some session => some session.inflight_pub_packets

/-- storage.rs Storage::add_uncompleted_message: store the inbound QoS 2
message under its packet id; false when the id is in use. -/
def Storage.add_uncompleted_message (inner : StorageInner) (client_id : String)
    (packet_id : Nat) (msg : Message) : Option (Bool × StorageInner) :=
  match findA inner.sessions client_id with
  | none => none
  | some session =>
    if (findA session.uncompleted_messages packet_id).isSome then some (false, inner)
    else
      some (true,
        { inner with
          sessions := modifyA inner.sessions client_id (fun s =>
            { s with uncompleted_messages := insertA s.uncompleted_messages packet_id msg }) })

/-- storage.rs Storage::remove_uncompleted_message. -/
def Storage.remove_uncompleted_message (inner : StorageInner) (client_id : String)
    (packet_id : Nat) : Option (Option Message × StorageInner) :=
  match findA inner.sessions client_id with
  | none => none
  | some session =>
    some (findA session.uncompleted_messages packet_id,
      { inner with
        sessions := modifyA inner.sessions client_id (fun s =>
          { s with uncompleted_messages := eraseKeyA s.uncompleted_messages packet_id }) })

/-- QoS 2 acknowledgement progress of an outbound publish
(client_loop.rs Qos2State). -/
inductive Qos2State
  | published
  | recorded
deriving DecidableEq

/-- The disconnect reason codes the modelled driver fragments use. -/
inductive DisconnectReasonCode
  | protocolError
  | receiveMaximumExceeded
deriving DecidableEq

/-- The PUBREC reason codes the modelled driver fragments use. -/
inductive PubRecReasonCode
  | success
  | packetIdentifierInUse
deriving DecidableEq

/-- The reply of the QoS 2 arm of Connection::handle_publish. -/
inductive PublishQos2Out
  | disconnect (reason : DisconnectReasonCode)
  | pubrec (reason : PubRecReasonCode)
deriving DecidableEq

/-- client_loop.rs Connection::handle_publish, the QoS 2 arm: quota
exhausted disconnects with ReceiveMaximumExceeded; a duplicate packet id
(the insert returns a previous entry) answers PUBREC
PacketIdentifierInUse on v5 and disconnects with ProtocolError on v4;
otherwise the quota is decremented, the message stored, and PUBREC
Success sent. -/
def handle_publish_qos2 (level : ProtocolLevel) (receive_in_quota : Nat)
    (uncompleted_messages : List (Nat × Message)) (packet_id : Nat) (msg : Message) :
    Nat × List (Nat × Message) × PublishQos2Out :=
  if receive_in_quota = 0 then
    (receive_in_quota, uncompleted_messages,
      PublishQos2Out.disconnect DisconnectReasonCode.receiveMaximumExceeded)
  else
    let old := findA uncompleted_messages packet_id
    let uncompleted2 := insertA uncompleted_messages packet_id msg
    if old.isSome then
      if level = ProtocolLevel.v5 then
        (receive_in_quota, uncompleted2,
          PublishQos2Out.pubrec PubRecReasonCode.packetIdentifierInUse)
      else
        (receive_in_quota, uncompleted2,
          PublishQos2Out.disconnect DisconnectReasonCode.protocolError)
    else
      (receive_in_quota - 1, uncompleted2, PublishQos2Out.pubrec PubRecReasonCode.success)

/-- The flow-control view of one connection driver: quotas together with
its session's in-flight deque and the per-connection QoS 2 state map
(client_loop.rs Connection with the storage session's
inflight_pub_packets inlined). -/
structure ConnState where
  receive_out_max : Nat
  receive_out_quota : Nat
  inflight_pub_packets : List Publish
  inflight_qos2_messages : List (Nat × Qos2State)
deriving DecidableEq

/-- Whether the in-flight deque front carries the given packet id. -/
def frontMatches (inflight : List Publish) (packet_id : Nat) : Bool :=
  (inflight.head?.map (fun publish => decide (publish.packet_id = some packet_id))).getD false

/-- client_loop.rs Connection::handle_connect, the flow-control part
after CONNECT: quota is set to the maximum and decremented once per
replayed in-flight packet; the per-connection QoS 2 map starts empty. -/
def ConnState.connect_replay (receive_out_max : Nat) (inflight : List Publish) : ConnState :=
  { receive_out_max := receive_out_max
    receive_out_quota := receive_out_max - inflight.length
    inflight_pub_packets := inflight
    inflight_qos2_messages := [] }

/-- client_loop.rs Connection::delive: deliver one queued message; a QoS
1 or 2 publish takes a packet id, consumes one quota unit, joins the
in-flight deque (Storage::add_inflight_pub_packet) and is marked
Published in the QoS 2 map. -/
def ConnState.delive (s : ConnState) (now : Nat) (pid : Nat) (msg : Message) : ConnState :=
  match msg.to_publish_and_update_expiry_interval now with
  | none => s
  | some publish =>
    if publish.qos = Qos.atMostOnce then s
    else
      let publish2 := { publish with packet_id := some pid }
      { s with
          receive_out_quota := s.receive_out_quota - 1
          inflight_pub_packets := s.inflight_pub_packets ++ [publish2]
          inflight_qos2_messages :=
            insertA s.inflight_qos2_messages pid Qos2State.published }

/-- client_loop.rs Connection::handle_pub_ack over the combined state:
pop the in-flight front when it carries the acked id and restore one
quota unit; none models the ProtocolError disconnect. -/
def ConnState.handle_pub_ack (s : ConnState) (pid : Nat) : Option ConnState :=
  if frontMatches s.inflight_pub_packets pid then
    some { s with
        inflight_pub_packets := s.inflight_pub_packets.tail
        receive_out_quota := s.receive_out_quota + 1 }
  else none

/-- client_loop.rs Connection::handle_pub_rec: the packet id must be
Published in the QoS 2 map (else disconnect) and becomes Recorded; a
non-success reason pops the matching in-flight front and returns without
restoring quota; a success reason sends PUBREL without touching the
deque, disconnecting on v4 when the front does not match. -/
def ConnState.handle_pub_rec (s : ConnState) (pid : Nat) (reason_success : Bool)
    (level : ProtocolLevel) : Option ConnState :=
  match findA s.inflight_qos2_messages pid with
  | none => none
  | some st =>
    if st ≠ Qos2State.published then none
    else
      let s1 := { s with
        inflight_qos2_messages := insertA s.inflight_qos2_messages pid Qos2State.recorded }
      if !reason_success then
        if frontMatches s1.inflight_pub_packets pid then
          some { s1 with inflight_pub_packets := s1.inflight_pub_packets.tail }
        else none
      else
        if frontMatches s1.inflight_pub_packets pid then some s1
        else if level = ProtocolLevel.v5 then some s1 else none

/-- client_loop.rs Connection::handle_pub_comp: the QoS 2 entry must be
Recorded (else disconnect) and is removed; a matching in-flight front is
popped and one quota unit restored, otherwise nothing more changes. -/
def ConnState.handle_pub_comp (s : ConnState) (pid : Nat) : Option ConnState :=
  match findA s.inflight_qos2_messages pid with
  | some Qos2State.recorded =>
    let s1 := { s with inflight_qos2_messages := eraseKeyA s.inflight_qos2_messages pid }
    if frontMatches s1.inflight_pub_packets pid then
      some { s1 with
          inflight_pub_packets := s1.inflight_pub_packets.tail
          receive_out_quota := s1.receive_out_quota + 1 }
    else some s1
  | _ => none

/-- Invariant 5 of the spec: quota plus the number of in-flight QoS 1 or
2 packets equals the receive maximum (and only QoS 1 or 2 packets are
ever in flight). -/
def connInv (s : ConnState) : Prop :=
  s.receive_out_quota +
      s.inflight_pub_packets.countP (fun p => decide (p.qos ≠ Qos.atMostOnce)) =
    s.receive_out_max ∧
  ∀ p ∈ s.inflight_pub_packets, p.qos ≠ Qos.atMostOnce

/-- The storage-backed Connection::handle_pub_ack of client_loop.rs: a
front-matching PUBACK pops the deque front and restores quota, any other
id is a ProtocolError disconnect (the session lookup panic stays none). -/
inductive AckOutcome
  | ok (receive_out_quota : Nat) (inner : StorageInner)
  | disconnect (reason : DisconnectReasonCode)
deriving DecidableEq

def Connection.handle_pub_ack (inner : StorageInner) (receive_out_quota : Nat)
    (client_id : String) (packet_id : Nat) : Option AckOutcome :=
  match Storage.get_inflight_pub_packets inner client_id packet_id true with
  | none => none
  | some (some _, inner2) => some (AckOutcome.ok (receive_out_quota + 1) inner2)
  | some (none, _) => some (AckOutcome.disconnect DisconnectReasonCode.protocolError)

theorem insertA_insertA_same {α β : Type} [DecidableEq α] (l : List (α × β)) (k : α) (v : β) :
    insertA (insertA l k v) k v = insertA l k v := by
  induction l with
  | nil => simp [insertA]
  | cons p rest ih =>
    obtain ⟨k2, v2⟩ := p
    by_cases h : k2 = k <;> simp [insertA, h, ih]

theorem eraseKeyA_insertA_self {α β : Type} [DecidableEq α] (l : List (α × β)) (k : α) (v : β) :
    eraseKeyA (insertA l k v) k = eraseKeyA l k := by
  induction l with
  | nil => simp [insertA, eraseKeyA]
  | cons p rest ih =>
    obtain ⟨k2, v2⟩ := p
    by_cases h : k2 = k <;> simp [insertA, eraseKeyA, h, ih]

theorem eraseKeyA_idem {α β : Type} [DecidableEq α] (l : List (α × β)) (k : α) :
    eraseKeyA (eraseKeyA l k) k = eraseKeyA l k := by
  induction l with
  | nil => simp [eraseKeyA]
  | cons p rest ih =>
    obtain ⟨k2, v2⟩ := p
    by_cases h : k2 = k <;> simp [eraseKeyA, h, ih]

/-- C6: updating the retained store with an empty-payload message removes
the retained entry for that topic, and with a non-empty payload inserts
or replaces it; entries for all other topics are unchanged; the update is
idempotent on equal inputs; and after two successive updates for the same
topic only the second message is visible. -/
theorem c6_update_retained_spec (inner : StorageInner) (topic : String) (msg msg2 : Message) :
    (findA (Storage.update_retained_message inner topic msg).retain_messages topic =
      if msg.is_empty then none else some msg) ∧
    (∀ t, t ≠ topic →
      findA (Storage.update_retained_message inner topic msg).retain_messages t =
        findA inner.retain_messages t) ∧
    (Storage.update_retained_message (Storage.update_retained_message inner topic msg) topic
        msg = Storage.update_retained_message inner topic msg) ∧
    (∀ t,
      findA (Storage.update_retained_message
          (Storage.update_retained_message inner topic msg) topic msg2).retain_messages t =
        findA (Storage.update_retained_message inner topic msg2).retain_messages t) := by
  refine ⟨?_, ?_, ?_, ?_⟩
  · by_cases h : msg.is_empty <;>
      simp [Storage.update_retained_message, h, findA_eraseKeyA_self, findA_insertA_self]
  · intro t ht
    by_cases h : msg.is_empty <;>
      simp [Storage.update_retained_message, h, findA_eraseKeyA_ne _ _ _ ht,
        findA_insertA_ne _ _ _ _ ht]
  · by_cases h : msg.is_empty <;>
      simp [Storage.update_retained_message, h, eraseKeyA_idem, insertA_insertA_same]
  · intro t
    by_cases ht : t = topic
    · subst ht
      by_cases h : msg.is_empty <;> by_cases h2 : msg2.is_empty <;>
        simp [Storage.update_retained_message, h, h2, findA_eraseKeyA_self,
          findA_insertA_self, eraseKeyA_insertA_self, eraseKeyA_idem]
    · by_cases h : msg.is_empty <;> by_cases h2 : msg2.is_empty <;>
      simp [Storage.update_retained_message, h, h2, findA_eraseKeyA_ne _ _ _ ht,
        findA_insertA_ne _ _ _ _ ht]

/-- Witness for c6_update_retained_spec at a one-topic store. -/
theorem c6_update_retained_spec_witness :
    findA (Storage.update_retained_message
        { retain_messages := [("t", Message.new "t" Qos.atMostOnce "old")], sessions := [],
          send_last_will_timeout := [], remove_timeout := [], share_subscriptions := [],
          clients_expired := 0 }
        "t" (Message.new "t" Qos.atMostOnce "new")).retain_messages "u" =
      findA [("t", Message.new "t" Qos.atMostOnce "old")] "u" := by
  exact (c6_update_retained_spec
    { retain_messages := [("t", Message.new "t" Qos.atMostOnce "old")], sessions := [],
      send_last_will_timeout := [], remove_timeout := [], share_subscriptions := [],
      clients_expired := 0 }
    "t" (Message.new "t" Qos.atMostOnce "new") (Message.new "t" Qos.atMostOnce "new")).2.1
    "u" (by decide)

/-- C5: an inbound QoS 2 PUBLISH disconnects with ReceiveMaximumExceeded
when receive_in_quota is 0; a packet-id already among the uncompleted
messages answers PUBREC PacketIdentifierInUse on v5 and disconnects with
ProtocolError on v3; otherwise the quota is decremented, the message is
stored under the packet-id, and PUBREC Success is sent. -/
theorem c5_handle_publish_qos2_spec (level : ProtocolLevel) (receive_in_quota : Nat)
    (uncompleted_messages : List (Nat × Message)) (packet_id : Nat) (msg : Message) :
    (receive_in_quota = 0 →
      handle_publish_qos2 level receive_in_quota uncompleted_messages packet_id msg =
        (receive_in_quota, uncompleted_messages,
          PublishQos2Out.disconnect DisconnectReasonCode.receiveMaximumExceeded)) ∧
    (receive_in_quota ≠ 0 → (findA uncompleted_messages packet_id).isSome →
      handle_publish_qos2 ProtocolLevel.v5 receive_in_quota uncompleted_messages packet_id
          msg =
        (receive_in_quota, insertA uncompleted_messages packet_id msg,
          PublishQos2Out.pubrec PubRecReasonCode.packetIdentifierInUse) ∧
      handle_publish_qos2 ProtocolLevel.v4 receive_in_quota uncompleted_messages packet_id
          msg =
        (receive_in_quota, insertA uncompleted_messages packet_id msg,
          PublishQos2Out.disconnect DisconnectReasonCode.protocolError)) ∧
    (receive_in_quota ≠ 0 → findA uncompleted_messages packet_id = none →
      handle_publish_qos2 level receive_in_quota uncompleted_messages packet_id msg =
        (receive_in_quota - 1, insertA uncompleted_messages packet_id msg,
          PublishQos2Out.pubrec PubRecReasonCode.success) ∧
      findA (insertA uncompleted_messages packet_id msg) packet_id = some msg) := by
  refine ⟨?_, ?_, ?_⟩
  · intro h
    simp [handle_publish_qos2, h]
  · intro h hdup
    constructor <;> simp [handle_publish_qos2, h, hdup]
  · intro h habs
    refine ⟨?_, findA_insertA_self _ _ _⟩
    simp [handle_publish_qos2, h, habs]

/-- Witness for c5_handle_publish_qos2_spec: the three QoS 2 branches at
concrete quota and packet-id values. -/
theorem c5_handle_publish_qos2_spec_witness :
    handle_publish_qos2 ProtocolLevel.v5 0 [] 1 (Message.new "a" Qos.exactlyOnce "x") =
      (0, [], PublishQos2Out.disconnect DisconnectReasonCode.receiveMaximumExceeded) ∧
    handle_publish_qos2 ProtocolLevel.v5 2 [(1, Message.new "a" Qos.exactlyOnce "x")] 1
        (Message.new "a" Qos.exactlyOnce "y") =
      (2, insertA [(1, Message.new "a" Qos.exactlyOnce "x")] 1
          (Message.new "a" Qos.exactlyOnce "y"),
        PublishQos2Out.pubrec PubRecReasonCode.packetIdentifierInUse) ∧
    handle_publish_qos2 ProtocolLevel.v4 2 [] 1 (Message.new "a" Qos.exactlyOnce "x") =
      (1, insertA [] 1 (Message.new "a" Qos.exactlyOnce "x"),
        PublishQos2Out.pubrec PubRecReasonCode.success) := by
  refine ⟨?_, ?_, ?_⟩
  · exact (c5_handle_publish_qos2_spec ProtocolLevel.v5 0 [] 1
      (Message.new "a" Qos.exactlyOnce "x")).1 rfl
  · exact ((c5_handle_publish_qos2_spec ProtocolLevel.v5 2
      [(1, Message.new "a" Qos.exactlyOnce "x")] 1
      (Message.new "a" Qos.exactlyOnce "y")).2.1 (by decide) (by decide)).1
  · exact ((c5_handle_publish_qos2_spec ProtocolLevel.v4 2 [] 1
      (Message.new "a" Qos.exactlyOnce "x")).2.2 (by decide) (by decide)).1

/-- C7: get_inflight_pub_packets answers only for the deque front:
a front-matching id yields the front (popping it iff remove is set,
leaving the state unchanged otherwise) and any other id yields none with
the state unchanged; consequently a front-matching PUBACK pops the front
and increments receive_out_quota while any other PUBACK id causes a
ProtocolError disconnect. -/
theorem c7_get_inflight_spec (inner : StorageInner) (client_id : String) (session : Session)
    (front : Publish) (rest : List Publish) (packet_id : Nat) (remove : Bool)
    (receive_out_quota : Nat)
    (hs : findA inner.sessions client_id = some session)
    (hq : session.inflight_pub_packets = front :: rest) :
    (front.packet_id = some packet_id →
      ∃ inner2,
        Storage.get_inflight_pub_packets inner client_id packet_id remove =
          some (some front, inner2) ∧
        findA inner2.sessions client_id =
          some { session with
                   inflight_pub_packets := if remove then rest else front :: rest } ∧
        (remove = false → inner2 = inner)) ∧
    (front.packet_id ≠ some packet_id →
      Storage.get_inflight_pub_packets inner client_id packet_id remove =
        some (none, inner)) ∧
    (front.packet_id = some packet_id →
      ∃ inner2,
        Connection.handle_pub_ack inner receive_out_quota client_id packet_id =
          some (AckOutcome.ok (receive_out_quota + 1) inner2) ∧
        findA inner2.sessions client_id =
          some { session with inflight_pub_packets := rest }) ∧
    (front.packet_id ≠ some packet_id →
      Connection.handle_pub_ack inner receive_out_quota client_id packet_id =
        some (AckOutcome.disconnect DisconnectReasonCode.protocolError)) := by
  have hpop :
      ∀ hmatch : front.packet_id = some packet_id,
        Storage.get_inflight_pub_packets inner client_id packet_id true =
          some (some front,
            { inner with
                sessions := modifyA inner.sessions client_id (fun s =>
                  { s with inflight_pub_packets := s.inflight_pub_packets.tail }) }) := by
    intro hmatch
    simp [Storage.get_inflight_pub_packets, hs, hq, hmatch]
  have hlook :
      findA (modifyA inner.sessions client_id (fun s =>
          { s with inflight_pub_packets := s.inflight_pub_packets.tail })) client_id =
        some { session with inflight_pub_packets := rest } := by
    rw [findA_modifyA_self, hs]
    simp [hq]
  refine ⟨?_, ?_, ?_, ?_⟩
  · intro hmatch
    cases remove with
    | true =>
      refine ⟨_, hpop hmatch, ?_, by intro h; cases h⟩
      simpa using hlook
    | false =>
      refine ⟨inner, ?_, ?_, fun _ => rfl⟩
      · simp [Storage.get_inflight_pub_packets, hs, hq, hmatch]
      · rw [hs, ← hq]
        simp
  · intro hmatch
    cases remove with
    | true => simp [Storage.get_inflight_pub_packets, hs, hq, hmatch]
    | false => simp [Storage.get_inflight_pub_packets, hs, hq, hmatch]
  · intro hmatch
    refine ⟨{ inner with sessions := modifyA inner.sessions client_id (fun s =>
        { s with inflight_pub_packets := s.inflight_pub_packets.tail }) }, ?_, hlook⟩
    unfold Connection.handle_pub_ack
    rw [hpop hmatch]
  · intro hmatch
    unfold Connection.handle_pub_ack
    have : Storage.get_inflight_pub_packets inner client_id packet_id true =
        some (none, inner) := by
      simp [Storage.get_inflight_pub_packets, hs, hq, hmatch]
    rw [this]

/-- Witness for c7_get_inflight_spec at a concrete one-packet deque:
the matching id is returned and popped by PUBACK, a non-matching id
disconnects. -/
theorem c7_get_inflight_spec_witness :
    (∃ inner2,
      Connection.handle_pub_ack
          { retain_messages := [],
            sessions := [("c",
              { queue := [], subscription_filters := Filters.default, last_will := none,
                inflight_pub_packets :=
                  [{ dup := false, qos := Qos.atLeastOnce, retain := false, topic := "t",
                     packet_id := some 3, payload := "x",
                     properties := PublishProperties.default }],
                uncompleted_messages := [], last_will_timeout_key := none,
                remove_timeout_key := none })],
            send_last_will_timeout := [], remove_timeout := [], share_subscriptions := [],
            clients_expired := 0 }
          9 "c" 3 =
        some (AckOutcome.ok 10 inner2) ∧
      findA inner2.sessions "c" =
        some { queue := [], subscription_filters := Filters.default, last_will := none,
               inflight_pub_packets := [], uncompleted_messages := [],
               last_will_timeout_key := none, remove_timeout_key := none }) := by
  obtain ⟨inner2, h1, h2⟩ :=
    (c7_get_inflight_spec
      { retain_messages := [],
        sessions := [("c",
          { queue := [], subscription_filters := Filters.default, last_will := none,
            inflight_pub_packets :=
              [{ dup := false, qos := Qos.atLeastOnce, retain := false, topic := "t",
                 packet_id := some 3, payload := "x",
                 properties := PublishProperties.default }],
            uncompleted_messages := [], last_will_timeout_key := none,
            remove_timeout_key := none })],
        send_last_will_timeout := [], remove_timeout := [], share_subscriptions := [],
        clients_expired := 0 }
      "c"
      { queue := [], subscription_filters := Filters.default, last_will := none,
        inflight_pub_packets :=
          [{ dup := false, qos := Qos.atLeastOnce, retain := false, topic := "t",
             packet_id := some 3, payload := "x", properties := PublishProperties.default }],
        uncompleted_messages := [], last_will_timeout_key := none, remove_timeout_key := none }
      { dup := false, qos := Qos.atLeastOnce, retain := false, topic := "t",
        packet_id := some 3, payload := "x", properties := PublishProperties.default }
      [] 3 true 9 (by decide) (by decide)).2.2.1 (by decide)
  exact ⟨inner2, h1, h2⟩

/-- C8: create_session with clean_start first removes any existing
session together with its will-timer and expiry-timer keys and its
entries in every share group, and yields session_present false with a
fresh session whose queue, filters, in-flight deque and uncompleted map
are empty and whose timer keys are none. -/
theorem c8_create_session_clean_start (inner : StorageInner) (client_id : String)
    (last_will : Option LastWill) :
    (Storage.create_session inner client_id true last_will).2 = false ∧
    findA (Storage.create_session inner client_id true last_will).1.sessions client_id =
      some (Session.fresh last_will) ∧
    (Session.fresh last_will).queue = [] ∧
    (Session.fresh last_will).subscription_filters = Filters.default ∧
    (Session.fresh last_will).inflight_pub_packets = [] ∧
    (Session.fresh last_will).uncompleted_messages = [] ∧
    (Session.fresh last_will).last_will_timeout_key = none ∧
    (Session.fresh last_will).remove_timeout_key = none ∧
    (∀ old, findA inner.sessions client_id = some old →
      (∀ k, old.last_will_timeout_key = some k →
        k ∉ (Storage.create_session inner client_id true last_will).1.send_last_will_timeout) ∧
      (∀ k, old.remove_timeout_key = some k →
        k ∉ (Storage.create_session inner client_id true last_will).1.remove_timeout)) ∧
    (∀ g ∈ (Storage.create_session inner client_id true last_will).1.share_subscriptions,
      findA g.2 client_id = none) := by
  refine ⟨rfl, ?_, rfl, rfl, rfl, rfl, rfl, rfl, ?_, ?_⟩
  · simp [Storage.create_session, findA_insertA_self]
  · intro old hold
    constructor
    · intro k hk hmem
      simp only [Storage.create_session, Bool.not_true, Bool.false_eq_true, if_false,
        StorageInner.remove_session, hold, hk] at hmem
      exact (mem_removeT.mp hmem).2 rfl
    · intro k hk hmem
      simp only [Storage.create_session, Bool.not_true, Bool.false_eq_true, if_false,
        StorageInner.remove_session, hold, hk] at hmem
      exact (mem_removeT.mp hmem).2 rfl
  · intro g hg
    simp only [Storage.create_session, Bool.not_true, Bool.false_eq_true, if_false,
      StorageInner.remove_session] at hg
    rcases List.mem_map.mp hg with ⟨p, _, rfl⟩
    exact findA_eraseKeyA_self _ _

/-- Witness for c8_create_session_clean_start at a state holding an old
session with both timer keys and a share-group membership. -/
theorem c8_create_session_clean_start_witness :
    (∀ k, (some { client_id := "c", timeout := 7 } : Option TimeoutKey) = some k →
      k ∉ (Storage.create_session
        { retain_messages := [],
          sessions := [("c",
            { queue := [], subscription_filters := Filters.default, last_will := none,
              inflight_pub_packets := [], uncompleted_messages := [],
              last_will_timeout_key := some { client_id := "c", timeout := 5 },
              remove_timeout_key := some { client_id := "c", timeout := 7 } })],
          send_last_will_timeout := [{ client_id := "c", timeout := 5 }],
          remove_timeout := [{ client_id := "c", timeout := 7 }],
          share_subscriptions := [("g", [("c", Filters.default)])],
          clients_expired := 0 }
        "c" true none).1.remove_timeout) := by
  exact ((c8_create_session_clean_start
    { retain_messages := [],
      sessions := [("c",
        { queue := [], subscription_filters := Filters.default, last_will := none,
          inflight_pub_packets := [], uncompleted_messages := [],
          last_will_timeout_key := some { client_id := "c", timeout := 5 },
          remove_timeout_key := some { client_id := "c", timeout := 7 } })],
      send_last_will_timeout := [{ client_id := "c", timeout := 5 }],
      remove_timeout := [{ client_id := "c", timeout := 7 }],
      share_subscriptions := [("g", [("c", Filters.default)])],
      clients_expired := 0 }
    "c" none).2.2.2.2.2.2.2.2.1
    { queue := [], subscription_filters := Filters.default, last_will := none,
      inflight_pub_packets := [], uncompleted_messages := [],
      last_will_timeout_key := some { client_id := "c", timeout := 5 },
      remove_timeout_key := some { client_id := "c", timeout := 7 } }
    (by decide)).2

theorem findA_modifyA_none {α β : Type} [DecidableEq α] {l : List (α × β)} {c : α} (k : α)
    (f : β → β) (h : findA l c = none) : findA (modifyA l k f) c = none := by
  by_cases hc : c = k
  · subst hc
    rw [findA_modifyA_self, h]
    rfl
  · rw [findA_modifyA_ne _ _ _ _ hc]
    exact h

theorem findA_foldl_pushToQueue_none (deliveries : List (String × Message))
    (acc : List (String × Session)) (cid : String) (h : findA acc cid = none) :
    findA (deliveries.foldl (fun a cm => pushToQueue a cm.1 cm.2) acc) cid = none := by
  induction deliveries generalizing acc with
  | nil => exact h
  | cons d rest ih =>
    exact ih _ (findA_modifyA_none _ _ h)

theorem findA_map_sessions_none {γ : Type} (l : List (String × Session)) (cid : String)
    (f : String × Session → String × γ) (hf : ∀ p, (f p).1 = p.1)
    (h : findA l cid = none) : findA (l.map f) cid = none := by
  induction l with
  | nil => simp [findA]
  | cons p rest ih =>
    simp only [findA] at h
    by_cases hp : p.1 = cid
    · simp [hp] at h
    · simp only [List.map_cons, findA, hf p, hp, if_false]
      exact ih (by simpa [hp] using h)

theorem findA_publishOne_none (pick : Nat → Nat) (now : Nat) (inner : StorageInner)
    (msg : Message) (cid : String) (h : findA inner.sessions cid = none) :
    findA (inner.publishOne pick now msg).sessions cid = none := by
  unfold StorageInner.publishOne
  refine findA_foldl_pushToQueue_none _ _ _ ?_
  refine findA_map_sessions_none _ _ _ ?_ h
  intro p
  cases p.2.subscription_filters.filter_message p.1 now msg <;> rfl

/-- C10: every per-session storage operation panics (none) for a
client-id with no session and succeeds (some) when the session exists;
publish and shared-filter subscribe and unsubscribe are total in the
client-id. -/
theorem c10_session_precondition (inner : StorageInner) (client_id : String) (now : Nat)
    (filter : FilterItem) (tf : TopicFilter) (publish : Publish) (msg : Message)
    (packet_id count : Nat) (limit : Option Nat) (remove : Bool) (pick : Nat → Nat) :
    (findA inner.sessions client_id = none →
      (filter.topic_filter.share_name = none →
        Storage.subscribe inner client_id now filter = none) ∧
      (tf.share_name = none → Storage.unsubscribe inner client_id tf = none) ∧
      Storage.next_messages inner client_id limit = none ∧
      Storage.consume_messages inner client_id count = none ∧
      Storage.add_inflight_pub_packet inner client_id publish = none ∧
      Storage.get_inflight_pub_packets inner client_id packet_id remove = none ∧
      Storage.get_all_inflight_pub_packets inner client_id = none ∧
      Storage.add_uncompleted_message inner client_id packet_id msg = none ∧
      Storage.remove_uncompleted_message inner client_id packet_id = none ∧
      (∀ g, filter.topic_filter.share_name = some g →
        (Storage.subscribe inner client_id now filter).isSome) ∧
      (∀ g, tf.share_name = some g → (Storage.unsubscribe inner client_id tf).isSome) ∧
      findA (inner.publishOne pick now msg).sessions client_id = none) ∧
    (∀ session, findA inner.sessions client_id = some session →
      (Storage.subscribe inner client_id now filter).isSome ∧
      (Storage.unsubscribe inner client_id tf).isSome ∧
      (Storage.next_messages inner client_id limit).isSome ∧
      (Storage.consume_messages inner client_id count).isSome ∧
      (Storage.add_inflight_pub_packet inner client_id publish).isSome ∧
      (Storage.get_inflight_pub_packets inner client_id packet_id remove).isSome ∧
      (Storage.get_all_inflight_pub_packets inner client_id).isSome ∧
      (Storage.add_uncompleted_message inner client_id packet_id msg).isSome ∧
      (Storage.remove_uncompleted_message inner client_id packet_id).isSome) := by
  constructor
  · intro hnone
    refine ⟨?_, ?_, ?_, ?_, ?_, ?_, ?_, ?_, ?_, ?_, ?_, ?_⟩
    · intro hsh
      simp [Storage.subscribe, hsh, hnone]
    · intro hsh
      simp [Storage.unsubscribe, hsh, hnone]
    · simp [Storage.next_messages, hnone]
    · simp [Storage.consume_messages, hnone]
    · simp [Storage.add_inflight_pub_packet, hnone]
    · simp [Storage.get_inflight_pub_packets, hnone]
    · simp [Storage.get_all_inflight_pub_packets, hnone]
    · simp [Storage.add_uncompleted_message, hnone]
    · simp [Storage.remove_uncompleted_message, hnone]
    · intro g hsh
      simp [Storage.subscribe, hsh]
    · intro g hsh
      cases hg : findA inner.share_subscriptions g <;>
        simp [Storage.unsubscribe, hsh, hg]
    · exact findA_publishOne_none pick now inner msg client_id hnone
  · intro session hsome
    refine ⟨?_, ?_, ?_, ?_, ?_, ?_, ?_, ?_, ?_⟩
    · cases hsh : filter.topic_filter.share_name <;>
        simp [Storage.subscribe, hsh, hsome]
    · cases hsh : tf.share_name with
      | none => simp [Storage.unsubscribe, hsh, hsome]
      | some g =>
        cases hg : findA inner.share_subscriptions g <;>
          simp [Storage.unsubscribe, hsh, hg]
    · simp [Storage.next_messages, hsome]
    · simp [Storage.consume_messages, hsome]
    · simp [Storage.add_inflight_pub_packet, hsome]
    · cases remove <;> simp [Storage.get_inflight_pub_packets, hsome] <;> split <;> simp
    · simp [Storage.get_all_inflight_pub_packets, hsome]
    · simp only [Storage.add_uncompleted_message, hsome]
      split <;> simp
    · simp [Storage.remove_uncompleted_message, hsome]

/-- Witness for c10_session_precondition: on an empty storage,
next_messages for an unknown client panics while a shared subscribe
succeeds; with the session present next_messages succeeds. -/
theorem c10_session_precondition_witness :
    Storage.next_messages
      { retain_messages := [], sessions := [], send_last_will_timeout := [],
        remove_timeout := [], share_subscriptions := [], clients_expired := 0 }
      "c" none = none ∧
    (Storage.next_messages
      { retain_messages := [],
        sessions := [("c", Session.fresh none)], send_last_will_timeout := [],
        remove_timeout := [], share_subscriptions := [], clients_expired := 0 }
      "c" none).isSome := by
  constructor
  · exact ((c10_session_precondition
      { retain_messages := [], sessions := [], send_last_will_timeout := [],
        remove_timeout := [], share_subscriptions := [], clients_expired := 0 }
      "c" 0
      { topic_filter := ⟨none, "a"⟩, qos := Qos.atMostOnce, no_local := false,
        retain_as_published := false, retain_handling := RetainHandling.never, id := none }
      ⟨none, "a"⟩
      { dup := false, qos := Qos.atMostOnce, retain := false, topic := "a",
        packet_id := none, payload := "", properties := PublishProperties.default }
      (Message.new "a" Qos.atMostOnce "") 1 0 none false (fun _ => 0)).1
      (by decide)).2.2.1
  · exact ((c10_session_precondition
      { retain_messages := [],
        sessions := [("c", Session.fresh none)], send_last_will_timeout := [],
        remove_timeout := [], share_subscriptions := [], clients_expired := 0 }
      "c" 0
      { topic_filter := ⟨none, "a"⟩, qos := Qos.atMostOnce, no_local := false,
        retain_as_published := false, retain_handling := RetainHandling.never, id := none }
      ⟨none, "a"⟩
      { dup := false, qos := Qos.atMostOnce, retain := false, topic := "a",
        packet_id := none, payload := "", properties := PublishProperties.default }
      (Message.new "a" Qos.atMostOnce "") 1 0 none false (fun _ => 0)).2
      (Session.fresh none) (by decide)).2.2.1

/-- C3 counterexample: from a state satisfying the quota equation,
handling a PUBREC with a non-success reason (one step of the driver) pops
the in-flight front without restoring receive_out_quota, so the equation
receive_out_quota + inflight = receive_out_max fails afterwards. -/
theorem c3_quota_equation_counterexample :
    ConnState.handle_pub_rec
        ((ConnState.connect_replay 1 []).delive 0 1 (Message.new "t" Qos.exactlyOnce "x"))
        1 false ProtocolLevel.v5 =
      some { receive_out_max := 1, receive_out_quota := 0, inflight_pub_packets := [],
             inflight_qos2_messages := [(1, Qos2State.recorded)] } ∧
    connInv ((ConnState.connect_replay 1 []).delive 0 1 (Message.new "t" Qos.exactlyOnce "x")) ∧
    ¬ connInv { receive_out_max := 1, receive_out_quota := 0, inflight_pub_packets := [],
                inflight_qos2_messages := [(1, Qos2State.recorded)] } := by
  refine ⟨by decide, ?_, ?_⟩
  · constructor
    · decide
    · decide
  · intro h
    exact absurd h.1 (by decide)


theorem frontMatches_cons {l : List Publish} {pid : Nat}
    (h : frontMatches l pid = true) : ∃ f rest, l = f :: rest := by
  cases l with
  | nil => simp [frontMatches] at h
  | cons f rest => exact ⟨f, rest, rfl⟩


/-- C3 amended: after CONNECT the equation receive_out_quota plus
in-flight QoS 1 or 2 packets equals receive_out_max holds, and every step
of the driver except a PUBREC with a non-success reason preserves it
(delivering a QoS 1 or 2 message under positive quota, PUBACK, PUBREC
with a success reason, PUBCOMP, and reconnect replay); a PUBREC with a
non-success reason instead pops the in-flight front without restoring
quota, leaving the sum one below receive_out_max. -/
theorem c3_quota_equation_amended :
    (∀ (receive_out_max : Nat) (inflight : List Publish),
      inflight.length ≤ receive_out_max →
      (∀ p ∈ inflight, p.qos ≠ Qos.atMostOnce) →
      connInv (ConnState.connect_replay receive_out_max inflight)) ∧
    (∀ (s : ConnState) (now pid : Nat) (msg : Message),
      0 < s.receive_out_quota → connInv s → connInv (s.delive now pid msg)) ∧
    (∀ (s s2 : ConnState) (pid : Nat),
      s.handle_pub_ack pid = some s2 → connInv s → connInv s2) ∧
    (∀ (s s2 : ConnState) (pid : Nat) (level : ProtocolLevel),
      s.handle_pub_rec pid true level = some s2 → connInv s → connInv s2) ∧
    (∀ (s s2 : ConnState) (pid : Nat),
      s.handle_pub_comp pid = some s2 → connInv s → connInv s2) ∧
    (∀ (s s2 : ConnState) (pid : Nat) (level : ProtocolLevel),
      s.handle_pub_rec pid false level = some s2 → connInv s →
      s2.receive_out_quota +
          s2.inflight_pub_packets.countP (fun p => decide (p.qos ≠ Qos.atMostOnce)) + 1 =
        s2.receive_out_max ∧ s2.receive_out_max = s.receive_out_max) := by
  have hpop : ∀ (s : ConnState) (f : Publish) (rest : List Publish),
      connInv s → s.inflight_pub_packets = f :: rest →
      s.receive_out_quota + 1 +
        List.countP (fun p => decide (p.qos ≠ Qos.atMostOnce)) rest = s.receive_out_max := by
    intro s f rest hinv hl
    have h1 := hinv.1
    rw [hl, List.countP_cons] at h1
    have hf : f.qos ≠ Qos.atMostOnce := hinv.2 f (by simp [hl])
    simp only [decide_eq_true_eq] at h1
    rw [if_pos hf] at h1
    omega
  have hmemtail : ∀ (s : ConnState) (f : Publish) (rest : List Publish),
      connInv s → s.inflight_pub_packets = f :: rest →
      ∀ p ∈ rest, p.qos ≠ Qos.atMostOnce := by
    intro s f rest hinv hl p hp
    exact hinv.2 p (by simp [hl, hp])
  refine ⟨?_, ?_, ?_, ?_, ?_, ?_⟩
  · intro receive_out_max inflight hlen hall
    constructor
    · simp only [ConnState.connect_replay]
      rw [List.countP_eq_length.mpr (by intro p hp; simpa using hall p hp)]
      omega
    · exact hall
  · intro s now pid msg hq hinv
    unfold ConnState.delive
    split
    · exact hinv
    · next publish hpub =>
        by_cases hqos : publish.qos = Qos.atMostOnce
        · rw [if_pos hqos]
          exact hinv
        · rw [if_neg hqos]
          refine ⟨?_, ?_⟩
          · show s.receive_out_quota - 1 +
                List.countP (fun p => decide (p.qos ≠ Qos.atMostOnce))
                  (s.inflight_pub_packets ++ [{ publish with packet_id := some pid }]) =
              s.receive_out_max
            have h1 := hinv.1
            rw [List.countP_append]
            have hone : List.countP (fun p => decide (p.qos ≠ Qos.atMostOnce))
                [{ publish with packet_id := some pid }] = 1 := by
              simp [hqos]
            rw [hone]
            omega
          · show ∀ p ∈ s.inflight_pub_packets ++ [{ publish with packet_id := some pid }],
                p.qos ≠ Qos.atMostOnce
            intro p hp
            rcases List.mem_append.mp hp with hp1 | hp1
            · exact hinv.2 p hp1
            · simp only [List.mem_singleton] at hp1
              subst hp1
              exact hqos
  · intro s s2 pid hstep hinv
    unfold ConnState.handle_pub_ack at hstep
    by_cases hfm : frontMatches s.inflight_pub_packets pid = true
    · rw [if_pos hfm] at hstep
      obtain ⟨f, rest, hl⟩ := frontMatches_cons hfm
      cases hstep
      refine ⟨?_, ?_⟩
      · show s.receive_out_quota + 1 +
            List.countP (fun p => decide (p.qos ≠ Qos.atMostOnce))
              s.inflight_pub_packets.tail = s.receive_out_max
        rw [hl, List.tail_cons]
        exact hpop s f rest hinv hl
      · show ∀ p ∈ s.inflight_pub_packets.tail, p.qos ≠ Qos.atMostOnce
        rw [hl, List.tail_cons]
        exact hmemtail s f rest hinv hl
    · rw [if_neg hfm] at hstep
      cases hstep
  · intro s s2 pid level hstep hinv
    unfold ConnState.handle_pub_rec at hstep
    cases hfind : findA s.inflight_qos2_messages pid with
    | none =>
      rw [hfind] at hstep
      simp at hstep
    | some st =>
      rw [hfind] at hstep
      cases st with
      | recorded => simp at hstep
      | published =>
        simp only [ne_eq, not_true_eq_false, if_false, Bool.not_true,
          Bool.false_eq_true] at hstep
        by_cases hfm : frontMatches s.inflight_pub_packets pid = true
        · rw [if_pos hfm] at hstep
          simp only [Option.some.injEq] at hstep
          subst hstep
          exact ⟨hinv.1, hinv.2⟩
        · rw [if_neg hfm] at hstep
          by_cases hlevel : level = ProtocolLevel.v5
          · rw [if_pos hlevel] at hstep
            simp only [Option.some.injEq] at hstep
            subst hstep
            exact ⟨hinv.1, hinv.2⟩
          · rw [if_neg hlevel] at hstep
            cases hstep
  · intro s s2 pid hstep hinv
    unfold ConnState.handle_pub_comp at hstep
    cases hfind : findA s.inflight_qos2_messages pid with
    | none =>
      rw [hfind] at hstep
      simp at hstep
    | some st =>
      rw [hfind] at hstep
      cases st with
      | published => simp at hstep
      | recorded =>
        by_cases hfm : frontMatches s.inflight_pub_packets pid = true
        · rw [if_pos hfm] at hstep
          obtain ⟨f, rest, hl⟩ := frontMatches_cons hfm
          simp only [Option.some.injEq] at hstep
          subst hstep
          refine ⟨?_, ?_⟩
          · show s.receive_out_quota + 1 +
                List.countP (fun p => decide (p.qos ≠ Qos.atMostOnce))
                  s.inflight_pub_packets.tail = s.receive_out_max
            rw [hl, List.tail_cons]
            exact hpop s f rest hinv hl
          · show ∀ p ∈ s.inflight_pub_packets.tail, p.qos ≠ Qos.atMostOnce
            rw [hl, List.tail_cons]
            exact hmemtail s f rest hinv hl
        · rw [if_neg hfm] at hstep
          simp only [Option.some.injEq] at hstep
          subst hstep
          exact ⟨hinv.1, hinv.2⟩
  · intro s s2 pid level hstep hinv
    unfold ConnState.handle_pub_rec at hstep
    cases hfind : findA s.inflight_qos2_messages pid with
    | none =>
      rw [hfind] at hstep
      simp at hstep
    | some st =>
      rw [hfind] at hstep
      cases st with
      | recorded => simp at hstep
      | published =>
        simp only [ne_eq, not_true_eq_false, if_false, Bool.not_false, if_true] at hstep
        by_cases hfm : frontMatches s.inflight_pub_packets pid = true
        · rw [if_pos hfm] at hstep
          obtain ⟨f, rest, hl⟩ := frontMatches_cons hfm
          simp only [Option.some.injEq] at hstep
          subst hstep
          refine ⟨?_, rfl⟩
          show s.receive_out_quota +
              List.countP (fun p => decide (p.qos ≠ Qos.atMostOnce))
                s.inflight_pub_packets.tail + 1 = s.receive_out_max
          rw [hl, List.tail_cons]
          have := hpop s f rest hinv hl
          omega
        · rw [if_neg hfm] at hstep
          cases hstep

/-- Witness for c3_quota_equation_amended: the PUBACK step at a concrete
one-packet state restores the quota equation. -/
theorem c3_quota_equation_amended_witness :
    connInv { receive_out_max := 1, receive_out_quota := 1, inflight_pub_packets := [],
              inflight_qos2_messages := [] } := by
  exact (c3_quota_equation_amended).2.2.1
    { receive_out_max := 1, receive_out_quota := 0,
      inflight_pub_packets :=
        [{ dup := false, qos := Qos.atLeastOnce, retain := false, topic := "t",
           packet_id := some 1, payload := "x", properties := PublishProperties.default }],
      inflight_qos2_messages := [] }
    { receive_out_max := 1, receive_out_quota := 1, inflight_pub_packets := [],
      inflight_qos2_messages := [] }
    1 (by decide) (by constructor <;> decide)

theorem findA_some_mem {α β : Type} [DecidableEq α] {l : List (α × β)} {k : α} {v : β}
    (h : findA l k = some v) : (k, v) ∈ l := by
  induction l with
  | nil => simp [findA] at h
  | cons p rest ih =>
    obtain ⟨k2, v2⟩ := p
    by_cases h2 : k2 = k
    · subst h2
      simp [findA] at h
      simp [h]
    · simp only [findA, if_neg h2] at h
      exact List.mem_cons_of_mem _ (ih h)

theorem eraseKeyA_of_findA_none {α β : Type} [DecidableEq α] {l : List (α × β)} {k : α}
    (h : findA l k = none) : eraseKeyA l k = l := by
  induction l with
  | nil => rfl
  | cons p rest ih =>
    obtain ⟨k2, v2⟩ := p
    by_cases h2 : k2 = k
    · simp [findA, h2] at h
    · simp only [findA, if_neg h2] at h
      simp [eraseKeyA, h2, ih h]

theorem insertA_findA_self {α β : Type} [DecidableEq α] {l : List (α × β)} {k : α} {v : β}
    (h : findA l k = some v) : insertA l k v = l := by
  induction l with
  | nil => simp [findA] at h
  | cons p rest ih =>
    obtain ⟨k2, v2⟩ := p
    by_cases h2 : k2 = k
    · subst h2
      simp [findA] at h
      simp [insertA, h]
    · simp only [findA, if_neg h2] at h
      simp [insertA, h2, ih h]

theorem insertA_insertA {α β : Type} [DecidableEq α] (l : List (α × β)) (k : α) (v w : β) :
    insertA (insertA l k v) k w = insertA l k w := by
  induction l with
  | nil => simp [insertA]
  | cons p rest ih =>
    obtain ⟨k2, v2⟩ := p
    by_cases h : k2 = k <;> simp [insertA, h, ih]

theorem findA_of_not_mem_keys {α β : Type} [DecidableEq α] {l : List (α × β)} {k : α}
    (h : k ∉ l.map Prod.fst) : findA l k = none := by
  induction l with
  | nil => rfl
  | cons p rest ih =>
    simp only [List.map_cons, List.mem_cons, not_or] at h
    simp [findA, Ne.symm h.1, ih h.2]

theorem modifyA_of_findA_none {α β : Type} [DecidableEq α] {l : List (α × β)} {k : α}
    (f : β → β) (h : findA l k = none) : modifyA l k f = l := by
  induction l with
  | nil => rfl
  | cons p rest ih =>
    obtain ⟨k2, v2⟩ := p
    by_cases h2 : k2 = k
    · simp [findA, h2] at h
    · simp only [findA, if_neg h2] at h
      simp [modifyA, h2, ih h]

theorem modifyA_eq_self {α β : Type} [DecidableEq α] {l : List (α × β)} {k : α} {v : β}
    (f : β → β) (hnd : (l.map Prod.fst).Nodup) (hfind : findA l k = some v)
    (hf : f v = v) : modifyA l k f = l := by
  induction l with
  | nil => simp [findA] at hfind
  | cons p rest ih =>
    obtain ⟨k2, v2⟩ := p
    simp only [List.map_cons, List.nodup_cons] at hnd
    by_cases h2 : k2 = k
    · subst h2
      simp [findA] at hfind
      subst hfind
      have hrest : findA rest k2 = none :=
        findA_of_not_mem_keys hnd.1
      simp [modifyA, hf, modifyA_of_findA_none f hrest]
    · simp only [findA, if_neg h2] at hfind
      simp [modifyA, h2, ih hnd.2 hfind]


theorem findA_modifyA_some {α β : Type} [DecidableEq α] {l : List (α × β)} {k : α} {v : β}
    (f : β → β) (h : findA l k = some v) : findA (modifyA l k f) k = some (f v) := by
  rw [findA_modifyA_self, h]
  rfl

/-- C9: subscribe of a not-currently-subscribed filter followed by
unsubscribe of the same filter restores the session's filter map (for a
shared filter, the share-group maps, with emptied client and group
entries removed); unsubscribe of an absent filter returns false and
leaves the storage unchanged; unsubscribe of a present filter returns
true. -/
theorem c9_subscribe_unsubscribe_spec (inner : StorageInner) (client_id : String) (now : Nat)
    (item : FilterItem) :
    (item.topic_filter.share_name = none →
      ∀ session, findA inner.sessions client_id = some session →
      findA session.subscription_filters.items item.topic_filter.path = none →
      ∀ inner2, Storage.subscribe inner client_id now item = some inner2 →
      (Storage.unsubscribe inner2 client_id item.topic_filter).isSome ∧
      ∀ r, Storage.unsubscribe inner2 client_id item.topic_filter = some r →
        r.1 = true ∧
        ∃ s2, findA r.2.sessions client_id = some s2 ∧
          s2.subscription_filters = session.subscription_filters) ∧
    (∀ gname, item.topic_filter.share_name = some gname →
      (∀ g ∈ inner.share_subscriptions, g.2 ≠ []) →
      (∀ g ∈ inner.share_subscriptions, ∀ c ∈ g.2, c.2.items ≠ []) →
      (∀ clients fs, findA inner.share_subscriptions gname = some clients →
        findA clients client_id = some fs →
        findA fs.items item.topic_filter.path = none) →
      ∀ inner2, Storage.subscribe inner client_id now item = some inner2 →
      ∀ r, Storage.unsubscribe inner2 client_id item.topic_filter = some r →
        r.1 = true ∧ r.2.share_subscriptions = inner.share_subscriptions) ∧
    (item.topic_filter.share_name = none →
      (inner.sessions.map Prod.fst).Nodup →
      ∀ session, findA inner.sessions client_id = some session →
      findA session.subscription_filters.items item.topic_filter.path = none →
      Storage.unsubscribe inner client_id item.topic_filter = some (false, inner)) ∧
    (∀ gname, item.topic_filter.share_name = some gname →
      (∀ g ∈ inner.share_subscriptions, g.2 ≠ []) →
      (∀ g ∈ inner.share_subscriptions, ∀ c ∈ g.2, c.2.items ≠ []) →
      (∀ clients fs, findA inner.share_subscriptions gname = some clients →
        findA clients client_id = some fs →
        findA fs.items item.topic_filter.path = none) →
      Storage.unsubscribe inner client_id item.topic_filter = some (false, inner)) ∧
    (item.topic_filter.share_name = none →
      ∀ session, findA inner.sessions client_id = some session →
      (findA session.subscription_filters.items item.topic_filter.path).isSome →
      ∀ r, Storage.unsubscribe inner client_id item.topic_filter = some r → r.1 = true) := by
  refine ⟨?_, ?_, ?_, ?_, ?_⟩
  · intro hsh session hs habs inner2 hsub
    simp only [Storage.subscribe, hsh, hs, Option.some.injEq] at hsub
    subst hsub
    have hs2 := findA_modifyA_self inner.sessions client_id
      (fun s => { s with
        subscription_filters := (session.subscription_filters.insert item).1
        queue := s.queue ++
          (if
              (match item.retain_handling,
                  (session.subscription_filters.insert item).2.isNone with
                | RetainHandling.onEverySubscribe, _ => true
                | RetainHandling.onNewSubscribe, true => true
                | _, _ => false) =
                true then
            inner.retain_messages.filterMap (fun p =>
              (session.subscription_filters.insert item).1.filter_message client_id now p.2)
          else []) })
    rw [hs] at hs2
    simp only [Option.map_some'] at hs2
    constructor
    · simp only [Storage.unsubscribe, hsh, hs2, Option.isSome_some]
    · intro r hr
      simp only [Storage.unsubscribe, hsh, hs2, Option.some.injEq] at hr
      subst hr
      refine ⟨?_, ?_⟩
      · simp [Filters.remove, Filters.insert, findA_insertA_self]
      · exact ⟨_, findA_modifyA_some _ hs2, by
          simp only [Filters.remove, Filters.insert]
          rw [eraseKeyA_insertA_self, eraseKeyA_of_findA_none habs]⟩
  · intro gname hsh hwf1 hwf2 habs inner2 hsub
    cases hg : findA inner.share_subscriptions gname with
    | none =>
      simp only [Storage.subscribe, hsh, hg, Option.getD_none, Option.some.injEq] at hsub
      subst hsub
      intro r hr
      have h1 := findA_insertA_self inner.share_subscriptions gname
        (insertA [] client_id ((Filters.default.insert item).1))
      simp only [findA, Option.getD_none] at hr
      simp only [Storage.unsubscribe, hsh, h1, Option.some.injEq] at hr
      subst hr
      constructor
      · simp [Filters.remove, Filters.insert, Filters.default, insertA, findA,
          eraseKeyA, Filters.is_empty]
      · simp [Filters.remove, Filters.insert, Filters.default, insertA, findA, eraseKeyA,
          Filters.is_empty, eraseKeyA_insertA_self, eraseKeyA_of_findA_none hg]
    | some clients =>
      have hgmem : (gname, clients) ∈ inner.share_subscriptions := findA_some_mem hg
      have hcne : clients ≠ [] := hwf1 _ hgmem
      have hcb : clients.isEmpty = false := by
        simpa [List.isEmpty_iff] using hcne
      simp only [Storage.subscribe, hsh, hg, Option.getD_some, Option.some.injEq] at hsub
      subst hsub
      cases hc : findA clients client_id with
      | none =>
        intro r hr
        have h1 := findA_insertA_self inner.share_subscriptions gname
          (insertA clients client_id ((Filters.default.insert item).1))
        have h2 := findA_insertA_self clients client_id ((Filters.default.insert item).1)
        simp only [hc, Option.getD_none] at hr
        simp only [Storage.unsubscribe, hsh, h1, h2, Option.some.injEq] at hr
        subst hr
        constructor
        · simp [Filters.remove, Filters.insert, Filters.default, insertA, findA,
            eraseKeyA, Filters.is_empty]
        · simp [Filters.remove, Filters.insert, Filters.default, insertA, findA, eraseKeyA,
            Filters.is_empty, eraseKeyA_insertA_self, eraseKeyA_of_findA_none hc, hcb,
            insertA_insertA, insertA_findA_self hg]
      | some fs =>
        intro r hr
        have hfne : fs.items ≠ [] := hwf2 _ hgmem _ (findA_some_mem hc)
        have hremove : findA fs.items item.topic_filter.path = none := habs _ _ hg hc
        have h1 := findA_insertA_self inner.share_subscriptions gname
          (insertA clients client_id ((fs.insert item).1))
        have h2 := findA_insertA_self clients client_id ((fs.insert item).1)
        have hr1 : (((fs.insert item).1).remove item.topic_filter.path).1 = fs := by
          simp only [Filters.remove, Filters.insert]
          rw [eraseKeyA_insertA_self, eraseKeyA_of_findA_none hremove]
        have hempty : (((fs.insert item).1).remove item.topic_filter.path).1.is_empty =
            false := by
          rw [hr1]
          simp only [Filters.is_empty, List.isEmpty_iff]
          simpa using hfne
        simp only [hc, Option.getD_some] at hr
        simp only [Storage.unsubscribe, hsh, h1, h2, hempty,
          Bool.false_eq_true, if_false, Option.some.injEq] at hr
        subst hr
        constructor
        · simp [Filters.remove, Filters.insert, findA_insertA_self]
        · simp only [hr1]
          rw [insertA_insertA, insertA_findA_self hc]
          rw [if_neg (by simp [hcb])]
          rw [insertA_insertA, insertA_findA_self hg]
  · intro hsh hnd session hs habs
    have hrm : (session.subscription_filters.remove item.topic_filter.path).2.isSome =
        false := by
      simp [Filters.remove, habs]
    have hmod : modifyA inner.sessions client_id (fun s =>
        { s with subscription_filters :=
            (session.subscription_filters.remove item.topic_filter.path).1 }) =
        inner.sessions := by
      refine modifyA_eq_self _ hnd hs ?_
      simp only [Filters.remove]
      rw [eraseKeyA_of_findA_none habs]
    simp only [Storage.unsubscribe, hsh, hs, hrm, hmod]
  · intro gname hsh hwf1 hwf2 habs
    cases hg : findA inner.share_subscriptions gname with
    | none => simp [Storage.unsubscribe, hsh, hg]
    | some clients =>
      have hgmem : (gname, clients) ∈ inner.share_subscriptions := findA_some_mem hg
      have hcne : clients ≠ [] := hwf1 _ hgmem
      have hcb : clients.isEmpty = false := by
        simpa [List.isEmpty_iff] using hcne
      cases hc : findA clients client_id with
      | none =>
        simp only [Storage.unsubscribe, hsh, hg, hc, hcb, Bool.false_eq_true, if_false,
          insertA_findA_self hg]
      | some fs =>
        have hfne : fs.items ≠ [] := hwf2 _ hgmem _ (findA_some_mem hc)
        have hremove : findA fs.items item.topic_filter.path = none := habs _ _ hg hc
        have hrm : (fs.remove item.topic_filter.path).2.isSome = false := by
          simp [Filters.remove, hremove]
        have hr1 : (fs.remove item.topic_filter.path).1 = fs := by
          simp only [Filters.remove]
          rw [eraseKeyA_of_findA_none hremove]
        have hfsb : fs.is_empty = false := by
          simp only [Filters.is_empty, List.isEmpty_iff]
          simpa using hfne
        have hempty : (fs.remove item.topic_filter.path).1.is_empty = false := by
          rw [hr1]
          exact hfsb
        simp only [Storage.unsubscribe, hsh, hg, hc, hempty, Bool.false_eq_true, if_false,
          hrm, hr1, hfsb, insertA_findA_self hc, hcb, insertA_findA_self hg]
  · intro hsh session hs hpres r hr
    simp only [Storage.unsubscribe, hsh, hs, Option.some.injEq] at hr
    subst hr
    simpa [Filters.remove] using hpres

/-- Witness for c9_subscribe_unsubscribe_spec: unsubscribing an absent
filter on a concrete one-session store returns false and changes
nothing. -/
theorem c9_subscribe_unsubscribe_spec_witness :
    Storage.unsubscribe
      { retain_messages := [], sessions := [("c", Session.fresh none)],
        send_last_will_timeout := [], remove_timeout := [], share_subscriptions := [],
        clients_expired := 0 } "c" ⟨none, "x"⟩ =
      some (false,
        { retain_messages := [], sessions := [("c", Session.fresh none)],
          send_last_will_timeout := [], remove_timeout := [], share_subscriptions := [],
          clients_expired := 0 }) := by
  exact (c9_subscribe_unsubscribe_spec
    { retain_messages := [], sessions := [("c", Session.fresh none)],
      send_last_will_timeout := [], remove_timeout := [], share_subscriptions := [],
      clients_expired := 0 } "c" 0
    { topic_filter := ⟨none, "x"⟩, qos := Qos.atMostOnce, no_local := false,
      retain_as_published := false, retain_handling := RetainHandling.never,
      id := none }).2.2.1 rfl (by decide) (Session.fresh none) (by decide) (by decide)

theorem findA_publishMap (sessions : List (String × Session)) (cid : String) (now : Nat)
    (msg : Message) :
    findA (sessions.map (fun p =>
      match p.2.subscription_filters.filter_message p.1 now msg with
      | some m => (p.1, { p.2 with queue := p.2.queue ++ [m] })
      | none => p)) cid =
    (findA sessions cid).map (fun s =>
      match s.subscription_filters.filter_message cid now msg with
      | some m => { s with queue := s.queue ++ [m] }
      | none => s) := by
  induction sessions with
  | nil => rfl
  | cons p rest ih =>
    obtain ⟨k2, s2⟩ := p
    by_cases hk : k2 = cid
    · subst hk
      cases hf : s2.subscription_filters.filter_message k2 now msg <;>
        simp [findA, hf]
    · cases hf : s2.subscription_filters.filter_message k2 now msg <;>
        simp [findA, hf, hk, ih]

theorem findA_foldl_pushToQueue_eq (deliveries : List (String × Message))
    (acc : List (String × Session)) (cid : String) :
    findA (deliveries.foldl (fun a cm => pushToQueue a cm.1 cm.2) acc) cid =
    (findA acc cid).map (fun s =>
      { s with queue := s.queue ++
          (deliveries.filterMap (fun cm => if cm.1 = cid then some cm.2 else none)) }) := by
  induction deliveries generalizing acc with
  | nil => cases h : findA acc cid <;> simp [h]
  | cons d rest ih =>
    obtain ⟨c, m⟩ := d
    rw [List.foldl_cons, ih]
    by_cases hc : c = cid
    · subst hc
      rw [pushToQueue, findA_modifyA_self]
      cases h : findA acc c <;> simp [h, List.append_assoc]
    · rw [pushToQueue, findA_modifyA_ne _ _ _ _ (fun h2 => hc h2.symm)]
      cases h : findA acc cid <;> simp [h, hc]

theorem findA_publishOne_eq (pick : Nat → Nat) (now : Nat) (inner : StorageInner)
    (msg : Message) (cid : String) :
    findA (inner.publishOne pick now msg).sessions cid =
    (findA inner.sessions cid).map (fun s =>
      { s with queue := s.queue ++
          (match s.subscription_filters.filter_message cid now msg with
            | some m => [m]
            | none => []) ++
          ((shareDeliveries pick now msg inner.share_subscriptions).filterMap
            (fun cm => if cm.1 = cid then some cm.2 else none)) }) := by
  unfold StorageInner.publishOne
  rw [findA_foldl_pushToQueue_eq, findA_publishMap]
  cases h : findA inner.sessions cid with
  | none => rfl
  | some s =>
    cases hf : s.subscription_filters.filter_message cid now msg <;>
      simp [hf, List.append_assoc]

/-- A share-group member filter on path "t" in group "A". -/
def c4BugItemT : FilterItem :=
  { topic_filter := ⟨some "A", "t"⟩
    qos := Qos.atMostOnce
    no_local := false
    retain_as_published := false
    retain_handling := RetainHandling.never
    id := none }

/-- A share-group member filter on path "z" in group "B"; it does not
match topic "t". -/
def c4BugItemZ : FilterItem :=
  { topic_filter := ⟨some "B", "z"⟩
    qos := Qos.atMostOnce
    no_local := false
    retain_as_published := false
    retain_handling := RetainHandling.never
    id := none }

/-- A storage with share group "A" holding two members whose filters both
match topic "t", iterated before share group "B", whose only member does
not match. -/
def c4BugInner : StorageInner :=
  { retain_messages := []
    sessions :=
      [("a1", Session.fresh none), ("a2", Session.fresh none), ("b1", Session.fresh none)]
    send_last_will_timeout := []
    remove_timeout := []
    share_subscriptions :=
      [("A", [("a1", ⟨[("t", c4BugItemT)]⟩), ("a2", ⟨[("t", c4BugItemT)]⟩)]),
       ("B", [("b1", ⟨[("z", c4BugItemZ)]⟩)])]
    clients_expired := 0 }

/-- C4: the claimed per-group exactly-once delivery fails in the code.
StorageInner::publish clears matched_clients once per message, before
the loop over share groups, and swap_remove takes only the one drawn
element per group, so a match of an earlier group left in the vector is
delivered during a later group's iteration: here group "A" has two
matching members and group "B" none, yet after publishing one message
BOTH members of group "A" have the message in their queue (the second
one delivered during "B"'s iteration), while "B"'s member has none. -/
theorem c4_shared_subscription_code_bug :
    ((findA (c4BugInner.publishOne (fun _ => 0) 0
        (Message.new "t" Qos.atMostOnce "x")).sessions "a1").map
      (fun s => s.queue.length) = some 1) ∧
    ((findA (c4BugInner.publishOne (fun _ => 0) 0
        (Message.new "t" Qos.atMostOnce "x")).sessions "a2").map
      (fun s => s.queue.length) = some 1) ∧
    ((findA (c4BugInner.publishOne (fun _ => 0) 0
        (Message.new "t" Qos.atMostOnce "x")).sessions "b1").map
      (fun s => s.queue.length) = some 0) := by
  decide

